import Mathlib

/- Shallow embedding of pywikibot's throttle module (src/pywikibot/throttle.py).

   Python floats (clock readings, delays) are modelled as rationals, Python
   ints as integers/naturals.  The shared control file is modelled as
   `Option (List String)` — `none` stands for a file that cannot be opened
   (`IOError` on `open`), `some lines` for its readable lines.  Every
   operation additionally reports the file and sleep effects it performs as a
   `List IOEvent`, so frame properties ("performs no registry I/O", "never
   sleeps") are directly statable.  Clock reads (`time.time()` calls) are
   passed in as explicit parameters, one per call site, in source order. -/

namespace PywikibotThrottle

/-- One record of the shared control file: Python
`ProcEntry = namedtuple('ProcEntry', ['pid', 'time', 'site'])`. -/
structure ProcEntry where
  pid : ℤ
  time : ℚ
  site : String
deriving DecidableEq

/-- The characters stripped by Python `str.rstrip()` with no argument. -/
def isPySpace (c : Char) : Bool :=
  c = ' ' || c = '\t' || c = '\n' || c = '\r' || c = '\x0b' || c = '\x0c'

/-- Python `str.rstrip()`. -/
def pyRstrip (s : String) : String :=
  ⟨(s.data.reverse.dropWhile isPySpace).reverse⟩

/-- Python `str.split(sep)` for a one-character separator, on char lists:
`''.split(' ') = ['']`, `'a  b'.split(' ') = ['a', '', 'b']`, etc. -/
def splitOnCharList (sep : Char) : List Char → List (List Char)
  | [] => [[]]
  | c :: cs =>
    if c = sep then [] :: splitOnCharList sep cs
    else
      match splitOnCharList sep cs with
      | [] => [[c]]
      | h :: t => (c :: h) :: t

/-- Python `s.split(sep)` for a one-character separator. -/
def pySplit (s : String) (sep : Char) : List String :=
  (splitOnCharList sep s.data).map (fun l => ⟨l⟩)

/-- The decimal digit character for `d < 10`. -/
def digitChar (d : ℕ) : Char := Char.ofNat (48 + d)

/-- Value of a list of decimal digit characters, most significant first. -/
def digitsToNat (l : List Char) : ℕ :=
  l.foldl (fun n c => 10 * n + (c.toNat - 48)) 0

/-- Decimal digits of `n`, most significant first; `fuel` bounds the
recursion (any `fuel` with `n < 10 ^ fuel` is enough). -/
def natDigitsAux : ℕ → ℕ → List Char
  | 0, _ => []
  | fuel + 1, n =>
    if n < 10 then [digitChar n]
    else natDigitsAux fuel (n / 10) ++ [digitChar (n % 10)]

/-- Decimal rendering of a natural number, as Python `str` renders an `int`. -/
def natStr (n : ℕ) : String := ⟨natDigitsAux (n + 1) n⟩

/-- Decimal rendering of an integer, as Python `str` renders an `int`. -/
def intStr (z : ℤ) : String := if z < 0 then "-" ++ natStr z.natAbs else natStr z.natAbs

/-- A nonempty all-digit token, or failure. -/
def parseDigits? (l : List Char) : Option ℕ :=
  if l ≠ [] ∧ l.all Char.isDigit then some (digitsToNat l) else none

/-- Python `int(s)` on the canonical decimal format (optional sign, digits).
Python additionally strips surrounding whitespace and allows digit-group
underscores; those lenient forms never occur in this module's own output. -/
def parseInt? (s : String) : Option ℤ :=
  if s.data.head? = some '-' then (parseDigits? s.data.tail).map (fun n : ℕ => -(n : ℤ))
  else if s.data.head? = some '+' then (parseDigits? s.data.tail).map (fun n : ℕ => (n : ℤ))
  else (parseDigits? s.data).map (fun n : ℕ => (n : ℤ))

/-- Unsigned part of Python `float(s)`: digits with an optional single
`'.'`-separated fractional part (at least one digit overall). -/
def parseDecAbs? (l : List Char) : Option ℚ :=
  match l.dropWhile (fun c => c ≠ '.') with
  | [] => (parseDigits? l).map (fun n : ℕ => (n : ℚ))
  | _ :: fp =>
    let ip := l.takeWhile (fun c => c ≠ '.')
    if (ip ≠ [] ∨ fp ≠ []) ∧ ip.all Char.isDigit ∧ fp.all Char.isDigit
        ∧ fp.all (fun c => c ≠ '.') then
      some ((digitsToNat ip : ℚ) + (digitsToNat fp : ℚ) / (10 : ℚ) ^ fp.length)
    else none

/-- Python `float(s)` on the canonical decimal format (optional sign, digits,
optional fractional part); exponent/inf/nan forms never occur in this
module's own output. -/
def parseFloat? (s : String) : Option ℚ :=
  if s.data.head? = some '-' then (parseDecAbs? s.data.tail).map (fun q => -q)
  else if s.data.head? = some '+' then parseDecAbs? s.data.tail
  else parseDecAbs? s.data

/-- Python `int(x)` on a float: truncation toward zero (`Int.tdiv` by the
positive denominator truncates toward zero). -/
def pyTrunc (q : ℚ) : ℤ := Int.tdiv q.num (q.den : ℤ)

/-- One iteration of `Throttle._read_file`'s parsing loop:
`_pid, _time, _site = line.split(' ')`, then `int(_pid)`,
`int(float(_time))`, `_site.rstrip()`; any failure skips the line. -/
def parseLine (line : String) : Option ProcEntry :=
  match pySplit line ' ' with
  | [p, t, s] =>
    match parseInt? p, parseFloat? t with
    | some pd, some tq => some { pid := pd, time := (pyTrunc tq : ℚ), site := pyRstrip s }
    | _, _ => none
  | _ => none

/-- Fractional decimal digits of `q ∈ [0, 1)`, fuel-bounded. -/
def fracDigitsAux : ℕ → ℚ → List Char
  | 0, _ => []
  | fuel + 1, q =>
    if q = 0 then []
    else digitChar (⌊q * 10⌋).toNat :: fracDigitsAux fuel (q * 10 - (⌊q * 10⌋ : ℚ))

/-- Decimal rendering of a nonnegative non-integral rational. -/
def ratStrAbs (q : ℚ) : String :=
  natStr ⌊q⌋.toNat ++ "." ++ ⟨fracDigitsAux 64 (q - (⌊q⌋ : ℚ))⟩

/-- Rendering of a timestamp as Python's `str` does inside `FORMAT_LINE`:
integral values (Python `int`s, as produced by `_read_file`'s truncation)
print without a decimal point, fractional values (the float `checktime`
stamped into the entry this process appends for itself) with one.  The model
collapses Python's `int`/`float` distinction into `ℚ`, so an integral float
prints here as `'5'` where Python would print `'5.0'`; both parse back to the
same entry. -/
def timeStr (q : ℚ) : String :=
  if q.den = 1 then intStr q.num
  else if q < 0 then "-" ++ ratStrAbs (-q) else ratStrAbs q

/-- Python `FORMAT_LINE = '...'` (pid, space, time, space, site, newline)
applied to one entry, as `_write_file` writes it. -/
def lineOf (e : ProcEntry) : String :=
  intStr e.pid ++ " " ++ timeStr e.time ++ " " ++ e.site ++ "\n"

/-- The sort relation of `_write_file`'s `processes.sort(key=lambda p:
(p.pid, p.site))`: lexicographic on the (pid, site) pair. -/
def entryLe (p q : ProcEntry) : Prop :=
  p.pid < q.pid ∨ (p.pid = q.pid ∧ p.site ≤ q.site)

instance : DecidableRel entryLe := fun p q => by
  unfold entryLe; infer_instance

/-- `Throttle._write_file`'s stable sort by (pid, site). -/
def sortEntries (l : List ProcEntry) : List ProcEntry := l.insertionSort entryLe

/-- `Throttle._write_file`: sort by (pid, site), one rendered line per entry.
The file is opened with mode `'w'`, i.e. its old contents are discarded. -/
def writeLines (l : List ProcEntry) : List String := (sortEntries l).map lineOf

/-- File and sleep effects performed by an operation. -/
inductive IOEvent where
  | read : IOEvent
  | write : IOEvent
  | sleep : ℚ → IOEvent
deriving DecidableEq

/-- Whether an effect touches the shared control file. -/
def IOEvent.isFile : IOEvent → Bool
  | .read => true
  | .write => true
  | .sleep _ => false

/-- Process-global state: the module-level `pid` variable (`False` until the
first allocation, modelled as `none`) and the shared control file (`none`
when it cannot be opened). -/
structure GlobalState where
  pid : Option ℤ
  file : Option (List String)
deriving DecidableEq

/-- Python `proc.pid != pid` against the global `pid`; Python's `False`
compares equal to the int `0`. -/
def pidNe (p : ℤ) (g : Option ℤ) : Prop :=
  match g with
  | none => p ≠ 0
  | some q => p ≠ q

instance (p : ℤ) (g : Option ℤ) : Decidable (pidNe p g) := by
  unfold pidNe; cases g <;> infer_instance

/-- Python truthiness of the global `pid` (`False` and `0` are falsy). -/
def pidTruthy (g : Option ℤ) : Bool :=
  match g with
  | none => false
  | some q => q != 0

/-- The integer value of the global `pid` once set. -/
def pidVal (g : Option ℤ) : ℤ := g.getD 0

/-- The parseable entries of a list of lines, corrupt lines skipped. -/
def readLines (lines : List String) : List ProcEntry := lines.filterMap parseLine

/-- `Throttle._read_file`: on `IOError` (`file = none`) the exception is
re-raised exactly when `raise_exc` is set AND the global pid is truthy
(already allocated); otherwise an empty sequence results.  On a readable
file, lines that fail to parse are skipped. -/
def readFile (file : Option (List String)) (pidG : Option ℤ) (raise_exc : Bool) :
    Except Unit (List ProcEntry) :=
  match file with
  | none => if raise_exc = true ∧ pidTruthy pidG = true then .error () else .ok []
  | some lines => .ok (readLines lines)

/-- `Throttle._write_file` as a transition of the global state: mode `'w'`
fully replaces the old contents, whatever they were. -/
def writeFileGS (gs : GlobalState) (l : List ProcEntry) : GlobalState :=
  { gs with file := some (writeLines l) }

/-- Per-site throttle state (`Throttle.__init__`'s attributes).  The source
leaves `process_multiplicity` unset until `checkMultiplicity` first runs; the
field here is initialised to 1 and is never read before that point on any
source path (`getDelay` returns early when `multiplydelay` is off). -/
structure ThrottleState where
  mysite : String
  mindelay : ℚ
  maxdelay : ℚ
  writedelay : ℚ
  delay : ℚ
  last_read : ℚ
  last_write : ℚ
  next_multiplicity : ℚ
  checkdelay : ℚ
  dropdelay : ℚ
  releasepid : ℚ
  retry_after : ℚ
  checktime : ℚ
  multiplydelay : Bool
  process_multiplicity : ℕ
deriving DecidableEq

/-- The configuration values the module reads from `pywikibot.config`. -/
structure Config where
  minthrottle : ℚ
  maxthrottle : ℚ
  put_throttle : ℚ
  retry_wait : ℚ
  retry_max : ℚ
  noisysleep : ℚ
deriving DecidableEq

/-- Python `x or d` for an optional numeric `x`: `None` and `0` are falsy. -/
def pyOr (x : Option ℚ) (d : ℚ) : ℚ :=
  match x with
  | none => d
  | some v => if v = 0 then d else v

/-- Accumulator of `checkMultiplicity`'s `for proc in ...` loop. -/
structure CMAcc where
  count : ℕ
  procs : List ProcEntry
  my_pid : ℤ
deriving DecidableEq

/-- One iteration of `checkMultiplicity`'s loop: entries older than
`releasepid` are skipped outright; fresh same-site other-pid entries are
counted; entries other than this process's own are retained; while the global
pid is unset, `my_pid` tracks one more than the largest pid seen. -/
def cmStep (mysite : String) (dropdelay releasepid : ℚ) (pidG : Option ℤ) (now : ℚ)
    (acc : CMAcc) (p : ProcEntry) : CMAcc :=
  if releasepid < now - p.time then acc
  else
    { count := if now - p.time ≤ dropdelay ∧ p.site = mysite ∧ pidNe p.pid pidG then
                 acc.count + 1
               else acc.count,
      procs := if p.site ≠ mysite ∨ pidNe p.pid pidG then acc.procs ++ [p] else acc.procs,
      my_pid := if pidTruthy pidG = false ∧ acc.my_pid ≤ p.pid then p.pid + 1 else acc.my_pid }

/-- `Throttle.checkMultiplicity`.  `now` is the `time.time()` read before the
loop; `now2` the later read stored into `checktime` and stamped into the
entry this process appends for itself before rewriting the file.  Note that
the appended entry carries the raw (possibly fractional) clock value. -/
def checkMultiplicity (st : ThrottleState) (gs : GlobalState) (now now2 : ℚ) :
    Except Unit (ThrottleState × GlobalState) × List IOEvent :=
  match readFile gs.file gs.pid true with
  | .error e => (.error e, [IOEvent.read])
  | .ok entries =>
      let acc := entries.foldl (cmStep st.mysite st.dropdelay st.releasepid gs.pid now)
        { count := 1, procs := [],
          my_pid := if pidTruthy gs.pid then pidVal gs.pid else 1 }
      let newPid : ℤ := if pidTruthy gs.pid then pidVal gs.pid else acc.my_pid
      let written := acc.procs ++ [{ pid := newPid, time := now2, site := st.mysite }]
      (.ok ({ st with checktime := now2, process_multiplicity := acc.count },
            writeFileGS { gs with pid := some newPid } written),
       [IOEvent.read, IOEvent.write])

/-- The baseline selection and `if/elif` clamp of `Throttle.getDelay`,
before the final multiplication by `process_multiplicity`.  The `elif` means
the result is NOT a two-sided clamp: when the baseline is below
`mindelay * next_multiplicity` the lower bound wins even if it exceeds
`maxdelay`. -/
def clampBase (st : ThrottleState) (write : Bool) : ℚ :=
  let thisdelay := if write then st.writedelay else st.delay
  if thisdelay < st.mindelay * st.next_multiplicity then st.mindelay * st.next_multiplicity
  else if st.maxdelay < thisdelay then st.maxdelay
  else thisdelay

/-- `Throttle.getDelay`.  `t1` is the `time.time()` compared against
`checktime + checkdelay`; `t2, t3` are the clock reads of a triggered
`checkMultiplicity`.  The baseline is read before the possible refresh, the
clamp bounds and multiplicity after it, exactly as in the source. -/
def getDelay (st : ThrottleState) (gs : GlobalState) (write : Bool) (t1 t2 t3 : ℚ) :
    Except Unit (ℚ × ThrottleState × GlobalState) × List IOEvent :=
  let thisdelay := if write then st.writedelay else st.delay
  if st.multiplydelay = false then (.ok (thisdelay, st, gs), [])
  else
    match (if st.checktime + st.checkdelay < t1 then checkMultiplicity st gs t2 t3
           else (.ok (st, gs), [])) with
    | (.error e, tr) => (.error e, tr)
    | (.ok (st1, gs1), tr) =>
        let d := if thisdelay < st1.mindelay * st1.next_multiplicity then
                   st1.mindelay * st1.next_multiplicity
                 else if st1.maxdelay < thisdelay then st1.maxdelay
                 else thisdelay
        (.ok (d * (st1.process_multiplicity : ℚ), st1, gs1), tr)

/-- `Throttle.waittime`: `getDelay`, then `max(0, thisdelay - ago)` against
the kind's last-access stamp; `t4` is the `time.time()` read after
`getDelay`. -/
def waittime (st : ThrottleState) (gs : GlobalState) (write : Bool) (t1 t2 t3 t4 : ℚ) :
    Except Unit (ℚ × ThrottleState × GlobalState) × List IOEvent :=
  match getDelay st gs write t1 t2 t3 with
  | (.error e, tr) => (.error e, tr)
  | (.ok (d, st1, gs1), tr) =>
      let ago := t4 - (if write then st1.last_write else st1.last_read)
      (.ok (max 0 (d - ago), st1, gs1), tr)

/-- `Throttle.drop`: zero `checktime`, then unconditionally (no
`multiplydelay` guard) read the file and rewrite it without this process's
entries and without expired ones. -/
def drop (st : ThrottleState) (gs : GlobalState) (now : ℚ) :
    (ThrottleState × GlobalState) × List IOEvent :=
  let st1 := { st with checktime := 0 }
  let entries := match readFile gs.file gs.pid false with
    | .ok l => l
    | .error _ => []
  let procs := entries.filter
    (fun p => decide (now - p.time ≤ st.releasepid) && decide (pidNe p.pid gs.pid))
  ((st1, writeFileGS gs procs), [IOEvent.read, IOEvent.write])

/-- `Throttle.wait`: `if seconds <= 0: return`, else sleep that long. -/
def sleepTrace (seconds : ℚ) : List IOEvent :=
  if 0 < seconds then [IOEvent.sleep seconds] else []

/-- `Throttle.__call__`: compute the wait from the current state, only then
update `next_multiplicity` from the request size, sleep, and stamp the
post-sleep clock `t5` into the access kind's last-access field.  The float
`math.log(1 + requestsize) / math.log(2.0)` is abstracted as the parameter
function `nmOf` (its numeric values never matter to the claims below). -/
def throttleCall (st : ThrottleState) (gs : GlobalState) (requestsize : ℚ) (write : Bool)
    (t1 t2 t3 t4 t5 : ℚ) (nmOf : ℚ → ℚ) :
    Except Unit (ThrottleState × GlobalState) × List IOEvent :=
  match waittime st gs write t1 t2 t3 t4 with
  | (.error e, tr) => (.error e, tr)
  | (.ok (w, st1, gs1), tr) =>
      let st2 := { st1 with next_multiplicity := nmOf requestsize }
      let st3 := if write then { st2 with last_write := t5 } else { st2 with last_read := t5 }
      (.ok (st3, gs1), tr ++ sleepTrace w)

/-- `Throttle.setDelays`. -/
def setDelays (st : ThrottleState) (dl wdl : Option ℚ) (absolute : Bool)
    (cfg : Config) (now : ℚ) : ThrottleState :=
  let d := pyOr dl st.mindelay
  let w := pyOr wdl cfg.put_throttle
  let st1 := if absolute then { st with maxdelay := d, mindelay := d } else st
  { st1 with delay := d,
             writedelay := min (max st1.mindelay w) st1.maxdelay,
             last_read := now, last_write := now }

/-- `Throttle.__init__`: build the attribute record, run
`checkMultiplicity` when `multiplydelay` is on, then `setDelays()`. -/
def throttleInit (site : String) (mindelay maxdelay writedelay : Option ℚ)
    (multiplydelay : Bool) (cfg : Config) (gs : GlobalState) (tcm1 tcm2 tsd : ℚ) :
    Except Unit (ThrottleState × GlobalState) × List IOEvent :=
  let st0 : ThrottleState :=
    { mysite := site,
      mindelay := pyOr mindelay cfg.minthrottle,
      maxdelay := pyOr maxdelay cfg.maxthrottle,
      writedelay := pyOr writedelay cfg.put_throttle,
      delay := 0, last_read := 0, last_write := 0, next_multiplicity := 1,
      checkdelay := 300, dropdelay := 600, releasepid := 1200,
      retry_after := 0, checktime := 0,
      multiplydelay := multiplydelay, process_multiplicity := 1 }
  if multiplydelay then
    match checkMultiplicity st0 gs tcm1 tcm2 with
    | (.error e, tr) => (.error e, tr)
    | (.ok (st1, gs1), tr) => (.ok (setDelays st1 none none false cfg tsd, gs1), tr)
  else (.ok (setDelays st0 none none false cfg tsd, gs), [])

/-- `Throttle.lag`: the wait passed to `self.wait` and the resulting sleep.
`started` is the clock read on entry, `tNow` the one after the lock is
acquired; `lagtime or config.retry_wait` is Python-truthy (`None` and `0`
both fall back), and a truthy (nonzero) `retry_after` takes priority. -/
def lag (st : ThrottleState) (lagtime : Option ℚ) (cfg : Config) (started tNow : ℚ) :
    ℚ × List IOEvent :=
  let waittime0 := pyOr lagtime cfg.retry_wait
  let waittime1 := if st.retry_after ≠ 0 then max st.retry_after (waittime0 / 5) else waittime0
  let dl := min waittime1 cfg.retry_max
  let wait := dl - (tNow - started)
  (wait, sleepTrace wait)

/- ------------------------------------------------------------------ -/
/- Helper lemmas: decimal rendering/parsing round-trips.              -/
/- ------------------------------------------------------------------ -/

theorem digitsToNat_append (l : List Char) (c : Char) :
    digitsToNat (l ++ [c]) = 10 * digitsToNat l + (c.toNat - 48) := by
  simp [digitsToNat, List.foldl_append]

theorem digitChar_toNat (d : ℕ) (h : d < 10) : (digitChar d).toNat = 48 + d := by
  interval_cases d <;> decide

theorem digitChar_isDigit (d : ℕ) (h : d < 10) : (digitChar d).isDigit = true := by
  interval_cases d <;> decide

theorem isDigit_ne_special (c : Char) (h : c.isDigit = true) :
    c ≠ '-' ∧ c ≠ '+' ∧ c ≠ '.' ∧ isPySpace c = false ∧ c ≠ ' ' := by
  have hne : ∀ d : Char, d.isDigit = false → c ≠ d := by
    intro d hd hcd
    rw [hcd, hd] at h
    cases h
  refine ⟨hne '-' (by decide), hne '+' (by decide), hne '.' (by decide), ?_,
    hne ' ' (by decide)⟩
  by_contra hps
  rw [Bool.not_eq_false] at hps
  simp only [isPySpace, Bool.or_eq_true, decide_eq_true_eq] at hps
  rcases hps with ((((h1 | h1) | h1) | h1) | h1) | h1 <;>
    (subst h1; exact absurd h (by decide))

theorem natDigitsAux_spec (fuel : ℕ) :
    ∀ n, n < 10 ^ (fuel + 1) →
      digitsToNat (natDigitsAux (fuel + 1) n) = n ∧
      (natDigitsAux (fuel + 1) n).all Char.isDigit = true ∧
      natDigitsAux (fuel + 1) n ≠ [] := by
  induction fuel with
  | zero =>
    intro n hn
    have h10 : n < 10 := by simpa using hn
    have hunf : natDigitsAux (0 + 1) n = [digitChar n] := by
      rw [natDigitsAux, if_pos h10]
    rw [hunf]
    refine ⟨?_, by simp [digitChar_isDigit n h10], by simp⟩
    simp [digitsToNat, digitChar_toNat n h10]
  | succ fuel ih =>
    intro n hn
    by_cases h10 : n < 10
    · have hunf : natDigitsAux (fuel + 1 + 1) n = [digitChar n] := by
        rw [natDigitsAux, if_pos h10]
      rw [hunf]
      refine ⟨?_, by simp [digitChar_isDigit n h10], by simp⟩
      simp [digitsToNat, digitChar_toNat n h10]
    · have hdiv : n / 10 < 10 ^ (fuel + 1) := by
        have hpow : (10 : ℕ) ^ (fuel + 1 + 1) = 10 * 10 ^ (fuel + 1) := by ring
        rw [hpow] at hn
        omega
      have hunf : natDigitsAux (fuel + 1 + 1) n
          = natDigitsAux (fuel + 1) (n / 10) ++ [digitChar (n % 10)] := by
        rw [natDigitsAux, if_neg h10]
      obtain ⟨ihv, ihd, ihne⟩ := ih (n / 10) hdiv
      have hmod : n % 10 < 10 := Nat.mod_lt _ (by norm_num)
      rw [hunf]
      refine ⟨?_, ?_, by simp⟩
      · rw [digitsToNat_append, ihv, digitChar_toNat _ hmod]
        omega
      · rw [List.all_append]
        simp [ihd, digitChar_isDigit _ hmod]

theorem natStr_spec (n : ℕ) :
    digitsToNat (natStr n).data = n ∧
    ((natStr n).data.all Char.isDigit = true) ∧ (natStr n).data ≠ [] := by
  have hlt : n < 10 ^ (n + 1) :=
    lt_of_lt_of_le (Nat.lt_pow_self (by norm_num) n)
      (Nat.pow_le_pow_right (by norm_num) (Nat.le_succ n))
  exact natDigitsAux_spec n n hlt

theorem parseDigits?_of_digits (l : List Char) (hne : l ≠ [])
    (hd : l.all Char.isDigit = true) : parseDigits? l = some (digitsToNat l) := by
  simp [parseDigits?, hne, hd]

theorem dash_data : ("-" : String).data = ['-'] := rfl

theorem intStr_data_neg (z : ℤ) (hz : z < 0) :
    (intStr z).data = '-' :: (natStr z.natAbs).data := by
  rw [intStr, if_pos hz, String.data_append, dash_data]
  rfl

theorem parseInt?_intStr (z : ℤ) : parseInt? (intStr z) = some z := by
  obtain ⟨hv, hd, hne⟩ := natStr_spec z.natAbs
  by_cases hz : z < 0
  · rw [parseInt?, intStr_data_neg z hz]
    simp only [List.head?_cons, List.tail_cons]
    rw [if_pos trivial]
    rw [parseDigits?_of_digits _ hne hd, Option.map_some']
    refine congrArg some ?_
    rw [hv, Int.natCast_natAbs, abs_of_neg hz, neg_neg]
  · have hdata : (intStr z).data = (natStr z.natAbs).data := by
      rw [intStr, if_neg hz]
    obtain ⟨c, cs, hcons⟩ := List.exists_cons_of_ne_nil hne
    have hcd : c.isDigit = true := by
      rw [hcons, List.all_cons, Bool.and_eq_true] at hd
      exact hd.1
    obtain ⟨hm, hp, _, _, _⟩ := isDigit_ne_special c hcd
    rw [hcons] at hd hne
    rw [parseInt?, hdata, hcons, List.head?_cons,
      if_neg (by simp [hm]), if_neg (by simp [hp]),
      parseDigits?_of_digits _ hne hd]
    rw [hcons] at hv
    rw [Option.map_some']
    refine congrArg some ?_
    rw [hv, Int.natCast_natAbs, abs_of_nonneg (not_lt.mp hz)]

theorem all_not_dot_of_digits (l : List Char) (hd : l.all Char.isDigit = true) :
    l.all (fun c => c ≠ '.') = true := by
  rw [List.all_eq_true] at hd ⊢
  intro c hc
  have := isDigit_ne_special c (by simpa using hd c hc)
  simpa using this.2.2.1

theorem parseDecAbs?_of_digits (l : List Char) (hne : l ≠ [])
    (hd : l.all Char.isDigit = true) : parseDecAbs? l = some ((digitsToNat l : ℕ) : ℚ) := by
  have hnd : l.all (fun c => c ≠ '.') = true := all_not_dot_of_digits l hd
  have hdrop : l.dropWhile (fun c => c ≠ '.') = [] := by
    rw [List.dropWhile_eq_nil_iff]
    intro c hc
    rw [List.all_eq_true] at hnd
    simpa using hnd c hc
  rw [parseDecAbs?, hdrop, parseDigits?_of_digits _ hne hd]
  rfl

theorem parseFloat?_intStr (z : ℤ) : parseFloat? (intStr z) = some ((z : ℤ) : ℚ) := by
  obtain ⟨hv, hd, hne⟩ := natStr_spec z.natAbs
  by_cases hz : z < 0
  · rw [parseFloat?, intStr_data_neg z hz]
    simp only [List.head?_cons, List.tail_cons]
    rw [if_pos trivial]
    rw [parseDecAbs?_of_digits _ hne hd, Option.map_some']
    refine congrArg some ?_
    rw [hv, Int.cast_natAbs, abs_of_neg hz]
    push_cast
    ring
  · have hdata : (intStr z).data = (natStr z.natAbs).data := by
      rw [intStr, if_neg hz]
    obtain ⟨c, cs, hcons⟩ := List.exists_cons_of_ne_nil hne
    have hcd : c.isDigit = true := by
      rw [hcons, List.all_cons, Bool.and_eq_true] at hd
      exact hd.1
    obtain ⟨hm, hp, _, _, _⟩ := isDigit_ne_special c hcd
    rw [hcons] at hd hne
    rw [parseFloat?, hdata, hcons, List.head?_cons,
      if_neg (by simp [hm]), if_neg (by simp [hp]),
      parseDecAbs?_of_digits _ hne hd]
    rw [hcons] at hv
    refine congrArg some ?_
    rw [hv, Int.cast_natAbs, abs_of_nonneg (not_lt.mp hz)]

theorem pyTrunc_intCast (z : ℤ) : pyTrunc ((z : ℤ) : ℚ) = z := by
  simp [pyTrunc, Rat.num_intCast, Rat.den_intCast, Int.tdiv_one]

theorem splitOnCharList_of_no_sep (sep : Char) (a : List Char)
    (h : a.all (fun c => c ≠ sep) = true) : splitOnCharList sep a = [a] := by
  induction a with
  | nil => rfl
  | cons c cs ih =>
    rw [List.all_cons, Bool.and_eq_true, decide_eq_true_eq] at h
    simp only [splitOnCharList, if_neg h.1, ih h.2]

theorem splitOnCharList_append (sep : Char) (a b : List Char)
    (h : a.all (fun c => c ≠ sep) = true) :
    splitOnCharList sep (a ++ sep :: b) = a :: splitOnCharList sep b := by
  induction a with
  | nil => simp [splitOnCharList]
  | cons c cs ih =>
    rw [List.all_cons, Bool.and_eq_true, decide_eq_true_eq] at h
    rw [List.cons_append]
    simp only [splitOnCharList, if_neg h.1, ih h.2]

theorem space_data : (" " : String).data = [' '] := rfl

theorem newline_data : ("\n" : String).data = ['\n'] := rfl

theorem pyRstrip_append_newline (s : String)
    (h : s.data.all (fun c => isPySpace c = false) = true) :
    pyRstrip (s ++ "\n") = s := by
  have hdata : (s ++ ("\n" : String)).data = s.data ++ ['\n'] := by
    rw [String.data_append, newline_data]
  have hdrop : s.data.reverse.dropWhile isPySpace = s.data.reverse := by
    cases hrev : s.data.reverse with
    | nil => rfl
    | cons d ds =>
      have hdm : d ∈ s.data := by
        rw [← List.mem_reverse, hrev]
        exact List.mem_cons_self d ds
      have hd : isPySpace d = false := by
        rw [List.all_eq_true] at h
        simpa using h d hdm
      rw [List.dropWhile_cons, hd]
      simp
  rw [pyRstrip, hdata, List.reverse_append]
  simp only [List.reverse_cons, List.reverse_nil, List.nil_append, List.singleton_append]
  rw [List.dropWhile_cons, show isPySpace '\n' = true from rfl]
  simp only [if_pos trivial, reduceIte]
  rw [hdrop, List.reverse_reverse]

/-- The entries whose rendered line parses back exactly: an integral
timestamp (as every re-read entry has) and a site token without whitespace
characters (as the spec's format requires). -/
def WFEntry (e : ProcEntry) : Prop :=
  e.time.den = 1 ∧ e.site.data.all (fun c => isPySpace c = false) = true

instance : DecidablePred WFEntry := fun e => by
  unfold WFEntry; infer_instance

theorem digits_no_space (l : List Char) (hd : l.all Char.isDigit = true) :
    l.all (fun c => c ≠ ' ') = true := by
  rw [List.all_eq_true] at hd ⊢
  intro c hc
  have := isDigit_ne_special c (by simpa using hd c hc)
  simpa using this.2.2.2.2

theorem intStr_no_space (z : ℤ) : (intStr z).data.all (fun c => c ≠ ' ') = true := by
  obtain ⟨_, hd, _⟩ := natStr_spec z.natAbs
  by_cases hz : z < 0
  · rw [intStr_data_neg z hz, List.all_cons, Bool.and_eq_true]
    exact ⟨by decide, digits_no_space _ hd⟩
  · rw [intStr, if_neg hz]
    exact digits_no_space _ hd

theorem timeStr_int (q : ℚ) (hq : q.den = 1) : timeStr q = intStr q.num := by
  rw [timeStr, if_pos hq]

theorem lineOf_data (e : ProcEntry) :
    (lineOf e).data =
      (intStr e.pid).data ++ ' ' ::
        ((timeStr e.time).data ++ ' ' :: (e.site.data ++ ['\n'])) := by
  simp only [lineOf, String.data_append, space_data, newline_data]
  simp

theorem pySplit_lineOf (e : ProcEntry)
    (hsite : e.site.data.all (fun c => isPySpace c = false) = true)
    (hden : e.time.den = 1) :
    pySplit (lineOf e) ' ' = [intStr e.pid, timeStr e.time, e.site ++ "\n"] := by
  have h1 : (intStr e.pid).data.all (fun c => c ≠ ' ') = true := intStr_no_space _
  have h2 : (timeStr e.time).data.all (fun c => c ≠ ' ') = true := by
    rw [timeStr_int _ hden]
    exact intStr_no_space _
  have h3 : (e.site.data ++ ['\n']).all (fun c => c ≠ ' ') = true := by
    rw [List.all_append, Bool.and_eq_true]
    constructor
    · rw [List.all_eq_true] at hsite ⊢
      intro c hc
      have hps := hsite c hc
      simp only [decide_eq_true_eq] at hps ⊢
      intro hceq
      subst hceq
      simp [isPySpace] at hps
    · decide
  rw [pySplit, lineOf_data, splitOnCharList_append _ _ _ h1,
    splitOnCharList_append _ _ _ h2, splitOnCharList_of_no_sep _ _ h3]
  simp only [List.map]
  rfl

theorem parseLine_lineOf (e : ProcEntry) (he : WFEntry e) : parseLine (lineOf e) = some e := by
  obtain ⟨hden, hsite⟩ := he
  rw [parseLine, pySplit_lineOf e hsite hden, timeStr_int _ hden]
  simp only [parseInt?_intStr, parseFloat?_intStr]
  rw [pyTrunc_intCast, pyRstrip_append_newline e.site hsite,
    (Rat.den_eq_one_iff e.time).mp hden]

theorem readLines_map_lineOf (l : List ProcEntry) (h : ∀ e ∈ l, WFEntry e) :
    readLines (l.map lineOf) = l := by
  induction l with
  | nil => rfl
  | cons e es ih =>
    have he := h e (List.mem_cons_self e es)
    have hes : ∀ x ∈ es, WFEntry x := fun x hx => h x (List.mem_cons_of_mem e hx)
    have ih' := ih hes
    simp only [readLines] at ih' ⊢
    simp only [List.map_cons, List.filterMap_cons, parseLine_lineOf e he]
    exact congrArg (List.cons e) ih'

instance : IsTotal ProcEntry entryLe := ⟨by
  intro p q
  rcases lt_trichotomy p.pid q.pid with h | h | h
  · exact Or.inl (Or.inl h)
  · rcases le_total p.site q.site with hs | hs
    · exact Or.inl (Or.inr ⟨h, hs⟩)
    · exact Or.inr (Or.inr ⟨h.symm, hs⟩)
  · exact Or.inr (Or.inl h)⟩

instance : IsTrans ProcEntry entryLe := ⟨by
  intro a b c hab hbc
  rcases hab with h1 | ⟨h1, hs1⟩ <;> rcases hbc with h2 | ⟨h2, hs2⟩
  · exact Or.inl (h1.trans h2)
  · exact Or.inl (lt_of_lt_of_eq h1 h2)
  · exact Or.inl (lt_of_eq_of_lt h1 h2)
  · exact Or.inr ⟨h1.trans h2, hs1.trans hs2⟩⟩

theorem sortEntries_sorted (l : List ProcEntry) : List.Sorted entryLe (sortEntries l) :=
  List.sorted_insertionSort entryLe l

theorem sortEntries_perm (l : List ProcEntry) : (sortEntries l).Perm l :=
  List.perm_insertionSort entryLe l

theorem readLines_writeLines (l : List ProcEntry) (h : ∀ e ∈ l, WFEntry e) :
    readLines (writeLines l) = sortEntries l := by
  rw [writeLines]
  exact readLines_map_lineOf _ (fun e hme => h e ((sortEntries_perm l).mem_iff.mp hme))

/- ------------------------------------------------------------------ -/
/- Helper lemmas: the checkMultiplicity loop.                          -/
/- ------------------------------------------------------------------ -/

/-- Claim C4's counting predicate, as the loop applies it: not already
skipped as expired, at most `dropdelay` old, same site, different pid. -/
def countedPeer (mysite : String) (dropdelay releasepid : ℚ) (pidG : Option ℤ) (now : ℚ)
    (p : ProcEntry) : Prop :=
  ¬ releasepid < now - p.time ∧
    (now - p.time ≤ dropdelay ∧ p.site = mysite ∧ pidNe p.pid pidG)

instance (mysite dropdelay releasepid pidG now p) :
    Decidable (countedPeer mysite dropdelay releasepid pidG now p) := by
  unfold countedPeer; infer_instance

/-- Claim C4's retention predicate, as the loop applies it: not expired, and
not this process's own entry for this site. -/
def retained (mysite : String) (releasepid : ℚ) (pidG : Option ℤ) (now : ℚ)
    (p : ProcEntry) : Prop :=
  ¬ releasepid < now - p.time ∧ (p.site ≠ mysite ∨ pidNe p.pid pidG)

instance (mysite releasepid pidG now p) :
    Decidable (retained mysite releasepid pidG now p) := by
  unfold retained; infer_instance

theorem cmFold_count (mysite : String) (dropdelay releasepid : ℚ) (pidG : Option ℤ)
    (now : ℚ) (l : List ProcEntry) (acc : CMAcc) :
    (l.foldl (cmStep mysite dropdelay releasepid pidG now) acc).count =
      acc.count +
        (l.filter (fun p => decide (countedPeer mysite dropdelay releasepid pidG now p))).length := by
  induction l generalizing acc with
  | nil => simp
  | cons p ps ih =>
    rw [List.foldl_cons, ih, List.filter_cons]
    by_cases hsk : releasepid < now - p.time
    · have h1 : cmStep mysite dropdelay releasepid pidG now acc p = acc := by
        rw [cmStep, if_pos hsk]
      have h2 : decide (countedPeer mysite dropdelay releasepid pidG now p) = false := by
        simp [countedPeer, hsk]
      rw [h1, h2]
      simp
    · have h1 : (cmStep mysite dropdelay releasepid pidG now acc p).count =
          if now - p.time ≤ dropdelay ∧ p.site = mysite ∧ pidNe p.pid pidG then
            acc.count + 1 else acc.count := by
        rw [cmStep, if_neg hsk]
      by_cases hc : now - p.time ≤ dropdelay ∧ p.site = mysite ∧ pidNe p.pid pidG
      · have h2 : decide (countedPeer mysite dropdelay releasepid pidG now p) = true := by
          simp [countedPeer, hsk, hc]
        rw [h1, if_pos hc, h2]
        simp
        omega
      · have h2 : decide (countedPeer mysite dropdelay releasepid pidG now p) = false := by
          simp only [countedPeer, decide_eq_false_iff_not]
          intro hcp
          exact hc hcp.2
        rw [h1, if_neg hc, h2]
        simp

theorem cmFold_procs (mysite : String) (dropdelay releasepid : ℚ) (pidG : Option ℤ)
    (now : ℚ) (l : List ProcEntry) (acc : CMAcc) :
    (l.foldl (cmStep mysite dropdelay releasepid pidG now) acc).procs =
      acc.procs ++ l.filter (fun p => decide (retained mysite releasepid pidG now p)) := by
  induction l generalizing acc with
  | nil => simp
  | cons p ps ih =>
    rw [List.foldl_cons, ih, List.filter_cons]
    by_cases hsk : releasepid < now - p.time
    · have h1 : cmStep mysite dropdelay releasepid pidG now acc p = acc := by
        rw [cmStep, if_pos hsk]
      have h2 : decide (retained mysite releasepid pidG now p) = false := by
        simp [retained, hsk]
      rw [h1, h2]
      simp
    · have h1 : (cmStep mysite dropdelay releasepid pidG now acc p).procs =
          if p.site ≠ mysite ∨ pidNe p.pid pidG then acc.procs ++ [p] else acc.procs := by
        rw [cmStep, if_neg hsk]
      by_cases hr : p.site ≠ mysite ∨ pidNe p.pid pidG
      · have h2 : decide (retained mysite releasepid pidG now p) = true := by
          simp only [retained, decide_eq_true_eq]
          exact ⟨hsk, hr⟩
        rw [h1, if_pos hr, h2]
        simp
      · have h2 : decide (retained mysite releasepid pidG now p) = false := by
          simp only [retained, decide_eq_false_iff_not]
          intro hcp
          exact hr hcp.2
        rw [h1, if_neg hr, h2]
        simp

theorem cmFold_my_pid_truthy (mysite : String) (dropdelay releasepid : ℚ)
    (pidG : Option ℤ) (now : ℚ) (l : List ProcEntry) (acc : CMAcc)
    (h : pidTruthy pidG = true) :
    (l.foldl (cmStep mysite dropdelay releasepid pidG now) acc).my_pid = acc.my_pid := by
  induction l generalizing acc with
  | nil => rfl
  | cons p ps ih =>
    rw [List.foldl_cons, ih]
    by_cases hsk : releasepid < now - p.time
    · rw [cmStep, if_pos hsk]
    · rw [cmStep, if_neg hsk]
      simp [h]

theorem cmFold_my_pid_free (mysite : String) (dropdelay releasepid : ℚ)
    (pidG : Option ℤ) (now : ℚ) (l : List ProcEntry) (acc : CMAcc)
    (h : pidTruthy pidG = false) :
    (l.foldl (cmStep mysite dropdelay releasepid pidG now) acc).my_pid =
      ((l.filter (fun p => decide (¬ releasepid < now - p.time))).map
        (fun p => p.pid + 1)).foldl max acc.my_pid := by
  induction l generalizing acc with
  | nil => rfl
  | cons p ps ih =>
    rw [List.foldl_cons, ih, List.filter_cons]
    by_cases hsk : releasepid < now - p.time
    · have h1 : cmStep mysite dropdelay releasepid pidG now acc p = acc := by
        rw [cmStep, if_pos hsk]
      have h2 : (decide (¬ releasepid < now - p.time)) = false := by
        simp [hsk]
      rw [h1, h2]
      simp
    · have h1 : (cmStep mysite dropdelay releasepid pidG now acc p).my_pid =
          if acc.my_pid ≤ p.pid then p.pid + 1 else acc.my_pid := by
        rw [cmStep, if_neg hsk]
        simp [h]
      have hmax : (if acc.my_pid ≤ p.pid then p.pid + 1 else acc.my_pid) =
          max acc.my_pid (p.pid + 1) := by
        by_cases hle : acc.my_pid ≤ p.pid
        · rw [if_pos hle, max_eq_right (by omega)]
        · rw [if_neg hle, max_eq_left (by omega)]
      have h2 : (decide (¬ releasepid < now - p.time)) = true := by
        simp [hsk]
      rw [h1, hmax, h2, if_pos rfl, List.map_cons, List.foldl_cons]

/-- The pid value in force after one `checkMultiplicity` run: unchanged when
already truthy, else one more than the largest pid among non-expired entries,
never below the starting value 1. -/
def newPidOf (pidG : Option ℤ) (releasepid now : ℚ) (entries : List ProcEntry) : ℤ :=
  if pidTruthy pidG then pidVal pidG
  else ((entries.filter (fun p => decide (¬ releasepid < now - p.time))).map
    (fun p => p.pid + 1)).foldl max 1

theorem checkMultiplicity_error (st : ThrottleState) (gs : GlobalState) (now now2 : ℚ)
    (hr : readFile gs.file gs.pid true = .error ()) :
    checkMultiplicity st gs now now2 = (.error (), [IOEvent.read]) := by
  unfold checkMultiplicity
  rw [hr]

theorem checkMultiplicity_eq (st : ThrottleState) (gs : GlobalState) (now now2 : ℚ)
    (entries : List ProcEntry) (hr : readFile gs.file gs.pid true = .ok entries) :
    checkMultiplicity st gs now now2 =
      (.ok ({ st with
                checktime := now2,
                process_multiplicity := 1 + (entries.filter
                  (fun p => decide (countedPeer st.mysite st.dropdelay st.releasepid
                    gs.pid now p))).length },
            { pid := some (newPidOf gs.pid st.releasepid now entries),
              file := some (writeLines
                ((entries.filter (fun p => decide (retained st.mysite st.releasepid
                    gs.pid now p))) ++
                  [{ pid := newPidOf gs.pid st.releasepid now entries,
                     time := now2, site := st.mysite }])) }),
       [IOEvent.read, IOEvent.write]) := by
  unfold checkMultiplicity
  rw [hr]
  have hcount := cmFold_count st.mysite st.dropdelay st.releasepid gs.pid now entries
    { count := 1, procs := [], my_pid := if pidTruthy gs.pid then pidVal gs.pid else 1 }
  have hprocs := cmFold_procs st.mysite st.dropdelay st.releasepid gs.pid now entries
    { count := 1, procs := [], my_pid := if pidTruthy gs.pid then pidVal gs.pid else 1 }
  have hpid : (entries.foldl (cmStep st.mysite st.dropdelay st.releasepid gs.pid now)
      { count := 1, procs := [],
        my_pid := if pidTruthy gs.pid then pidVal gs.pid else 1 }).my_pid =
      (if pidTruthy gs.pid then pidVal gs.pid
       else ((entries.filter (fun p => decide (¬ st.releasepid < now - p.time))).map
         (fun p => p.pid + 1)).foldl max 1) := by
    by_cases ht : pidTruthy gs.pid = true
    · rw [cmFold_my_pid_truthy _ _ _ _ _ _ _ ht]
      simp [ht]
    · rw [Bool.not_eq_true] at ht
      rw [cmFold_my_pid_free _ _ _ _ _ _ _ ht]
      simp [ht]
  have hnewpid : (if pidTruthy gs.pid = true then pidVal gs.pid
      else (entries.foldl (cmStep st.mysite st.dropdelay st.releasepid gs.pid now)
        { count := 1, procs := [],
          my_pid := if pidTruthy gs.pid then pidVal gs.pid else 1 }).my_pid) =
      newPidOf gs.pid st.releasepid now entries := by
    rw [hpid, newPidOf]
    by_cases ht : pidTruthy gs.pid = true <;> simp [ht]
  simp only [hnewpid, writeFileGS]
  refine congrArg (fun x => (Except.ok x, [IOEvent.read, IOEvent.write])) ?_
  refine Prod.ext ?_ ?_
  · simp only [hcount]
  · simp only [hprocs, List.nil_append]

/- ------------------------------------------------------------------ -/
/- Helper lemmas: getDelay / waittime case analysis.                   -/
/- ------------------------------------------------------------------ -/

theorem getDelay_off (st : ThrottleState) (gs : GlobalState) (write : Bool) (t1 t2 t3 : ℚ)
    (hm : st.multiplydelay = false) :
    getDelay st gs write t1 t2 t3 =
      (.ok ((if write then st.writedelay else st.delay), st, gs), []) := by
  simp only [getDelay, hm]
  simp

theorem getDelay_noRefresh (st : ThrottleState) (gs : GlobalState) (write : Bool)
    (t1 t2 t3 : ℚ) (hm : st.multiplydelay = true)
    (hdue : ¬ st.checktime + st.checkdelay < t1) :
    getDelay st gs write t1 t2 t3 =
      (.ok (clampBase st write * (st.process_multiplicity : ℚ), st, gs), []) := by
  simp only [getDelay, hm, clampBase]
  simp [hdue]

theorem getDelay_refresh (st : ThrottleState) (gs : GlobalState) (write : Bool)
    (t1 t2 t3 : ℚ) (st1 : ThrottleState) (gs1 : GlobalState) (tr : List IOEvent)
    (hm : st.multiplydelay = true) (hdue : st.checktime + st.checkdelay < t1)
    (hcm : checkMultiplicity st gs t2 t3 = (.ok (st1, gs1), tr)) :
    getDelay st gs write t1 t2 t3 =
      (.ok (clampBase st write * (st1.process_multiplicity : ℚ), st1, gs1), tr) := by
  cases hfile : readFile gs.file gs.pid true with
  | error e =>
    cases e
    rw [checkMultiplicity_error st gs t2 t3 hfile] at hcm
    simp at hcm
  | ok entries =>
    rw [checkMultiplicity_eq st gs t2 t3 entries hfile] at hcm
    obtain ⟨hA, hB⟩ := Prod.mk.injEq .. |>.mp hcm
    obtain ⟨hst1, hgs1⟩ := Prod.mk.injEq .. |>.mp (Except.ok.inj hA)
    subst hB
    simp only [getDelay, hm, clampBase]
    rw [if_neg (by simp)]
    rw [if_pos hdue, checkMultiplicity_eq st gs t2 t3 entries hfile]
    simp only [← hst1, ← hgs1]

theorem getDelay_refresh_error (st : ThrottleState) (gs : GlobalState) (write : Bool)
    (t1 t2 t3 : ℚ) (hm : st.multiplydelay = true)
    (hdue : st.checktime + st.checkdelay < t1)
    (hr : readFile gs.file gs.pid true = .error ()) :
    getDelay st gs write t1 t2 t3 = (.error (), [IOEvent.read]) := by
  simp only [getDelay, hm]
  rw [if_neg (by simp)]
  rw [if_pos hdue, checkMultiplicity_error st gs t2 t3 hr]

theorem waittime_of_getDelay_ok (st : ThrottleState) (gs : GlobalState) (write : Bool)
    (t1 t2 t3 t4 : ℚ) (d : ℚ) (st1 : ThrottleState) (gs1 : GlobalState) (tr : List IOEvent)
    (h : getDelay st gs write t1 t2 t3 = (.ok (d, st1, gs1), tr)) :
    waittime st gs write t1 t2 t3 t4 =
      (.ok (max 0 (d - (t4 - (if write then st1.last_write else st1.last_read))),
        st1, gs1), tr) := by
  rw [waittime, h]

theorem waittime_of_getDelay_error (st : ThrottleState) (gs : GlobalState) (write : Bool)
    (t1 t2 t3 t4 : ℚ) (tr : List IOEvent)
    (h : getDelay st gs write t1 t2 t3 = (.error (), tr)) :
    waittime st gs write t1 t2 t3 t4 = (.error (), tr) := by
  rw [waittime, h]

/- ------------------------------------------------------------------ -/
/- Claim theorems.                                                     -/
/- ------------------------------------------------------------------ -/

theorem clampBase_bounds (st : ThrottleState) (write : Bool)
    (hcl : st.mindelay * st.next_multiplicity ≤ st.maxdelay) :
    st.mindelay * st.next_multiplicity ≤ clampBase st write ∧
    clampBase st write ≤ st.maxdelay := by
  simp only [clampBase]
  generalize (if write = true then st.writedelay else st.delay) = td
  split_ifs with h1 h2
  · exact ⟨le_refl _, hcl⟩
  · exact ⟨hcl, le_refl _⟩
  · exact ⟨not_lt.mp h1, not_lt.mp h2⟩

/-- Claim C1, amended: with multiplicity mode enabled AND the lower clamp
bound `mindelay * next_multiplicity` not exceeding `maxdelay`, every
successful `getDelay(write)` starts from the `writedelay`/`delay` baseline,
clamps it into `[mindelay * next_multiplicity, maxdelay]`, and returns the
clamped value multiplied by the current (post-refresh) process multiplicity.
Without the added bound hypothesis the claim is false (see the
counterexample): the source's `if/elif` keeps the lower bound even when it
exceeds `maxdelay`. -/
theorem c1_getDelay_clamped (st : ThrottleState) (gs : GlobalState) (write : Bool)
    (t1 t2 t3 : ℚ) (d : ℚ) (st' : ThrottleState) (gs' : GlobalState)
    (hm : st.multiplydelay = true)
    (hcl : st.mindelay * st.next_multiplicity ≤ st.maxdelay)
    (hok : (getDelay st gs write t1 t2 t3).1 = .ok (d, st', gs')) :
    d = clampBase st write * (st'.process_multiplicity : ℚ) ∧
    st.mindelay * st.next_multiplicity ≤ clampBase st write ∧
    clampBase st write ≤ st.maxdelay := by
  obtain ⟨hlo, hhi⟩ := clampBase_bounds st write hcl
  refine ⟨?_, hlo, hhi⟩
  by_cases hdue : st.checktime + st.checkdelay < t1
  · cases hfile : readFile gs.file gs.pid true with
    | error e =>
      cases e
      rw [getDelay_refresh_error st gs write t1 t2 t3 hm hdue hfile] at hok
      cases hok
    | ok entries =>
      have hcm := checkMultiplicity_eq st gs t2 t3 entries hfile
      rw [getDelay_refresh st gs write t1 t2 t3 _ _ _ hm hdue hcm] at hok
      simp only [Except.ok.injEq, Prod.mk.injEq] at hok
      obtain ⟨hd, hst, hgs⟩ := hok
      rw [← hd, ← hst]
  · rw [getDelay_noRefresh st gs write t1 t2 t3 hm hdue] at hok
    simp only [Except.ok.injEq, Prod.mk.injEq] at hok
    obtain ⟨hd, hst, hgs⟩ := hok
    rw [← hd, ← hst]

/-- Concrete state for C1's witness: clamp interval `[1, 10]`, baseline 2. -/
def c1WSt : ThrottleState :=
  { mysite := "wiki", mindelay := 1, maxdelay := 10, writedelay := 5, delay := 2,
    last_read := 0, last_write := 0, next_multiplicity := 1, checkdelay := 300,
    dropdelay := 600, releasepid := 1200, retry_after := 0, checktime := 0,
    multiplydelay := true, process_multiplicity := 1 }

/-- Witness for C1 at a concrete state: baseline `delay = 2`, clamp interval
`[1, 10]`, multiplicity 1, no refresh due; `getDelay` returns 2. -/
theorem c1_witness :
    (2 : ℚ) = clampBase c1WSt false * ((c1WSt.process_multiplicity : ℕ) : ℚ) ∧
    c1WSt.mindelay * c1WSt.next_multiplicity ≤ clampBase c1WSt false ∧
    clampBase c1WSt false ≤ c1WSt.maxdelay :=
  c1_getDelay_clamped c1WSt { pid := some 1, file := some [] } false 0 0 0 2
    c1WSt { pid := some 1, file := some [] } rfl
    (by simp only [c1WSt]; norm_num)
    (by rw [getDelay_noRefresh _ _ _ _ _ _ rfl (by simp only [c1WSt]; norm_num)]
        simp only [clampBase, c1WSt]
        norm_num)

/-- Concrete state for C1's counterexample: `mindelay * next_multiplicity =
20` exceeds `maxdelay = 15`, baseline `delay = 5`. -/
def c1CSt : ThrottleState :=
  { mysite := "wiki", mindelay := 10, maxdelay := 15, writedelay := 5, delay := 5,
    last_read := 0, last_write := 0, next_multiplicity := 2, checkdelay := 300,
    dropdelay := 600, releasepid := 1200, retry_after := 0, checktime := 0,
    multiplydelay := true, process_multiplicity := 1 }

/-- Counterexample to C1 as stated: with `mindelay = 10`, `maxdelay = 15`,
`next_multiplicity = 2` and baseline `delay = 5`, the lower clamp bound is
`20 > maxdelay`; `getDelay(read)` returns `20 * multiplicity = 20`, which
exceeds `maxdelay`, refuting the claim that the clamped value never exceeds
`maxdelay`. -/
theorem c1_counterexample :
    (getDelay c1CSt { pid := some 1, file := some [] } false 0 0 0).1 =
      .ok (20, c1CSt, { pid := some 1, file := some [] }) ∧
    c1CSt.maxdelay = 15 ∧ ¬ (20 : ℚ) ≤ 15 := by
  refine ⟨?_, rfl, by norm_num⟩
  rw [getDelay_noRefresh _ _ _ _ _ _ rfl (by simp only [c1CSt]; norm_num)]
  simp only [clampBase, c1CSt]
  norm_num

/-- Claim C3, amended: when the control file cannot be opened, `_read_file`
returns an empty sequence of entries, EXCEPT when `raise_exc` is set and the
process-wide pid HAS ALREADY been allocated (is truthy) — exactly then, and
only then, is the `IOError` surfaced.  This is the reverse of the claim's
"only on the very first ever access (no pid allocated yet)" condition. -/
theorem c3_readFile_error_iff (file : Option (List String)) (pidG : Option ℤ)
    (raise_exc : Bool) :
    (readFile file pidG raise_exc = .error () ↔
      file = none ∧ raise_exc = true ∧ pidTruthy pidG = true) ∧
    (file = none →
      readFile file pidG raise_exc = .error () ∨
        readFile file pidG raise_exc = .ok []) := by
  constructor
  · constructor
    · intro h
      cases file with
      | none =>
        refine ⟨rfl, ?_⟩
        rw [readFile] at h
        by_cases hc : raise_exc = true ∧ pidTruthy pidG = true
        · exact hc
        · rw [if_neg hc] at h
          cases h
      | some lines =>
        rw [readFile] at h
        cases h
    · rintro ⟨hf, hr, hp⟩
      subst hf
      rw [readFile, if_pos ⟨hr, hp⟩]
  · intro hf
    subst hf
    rw [readFile]
    by_cases h : raise_exc = true ∧ pidTruthy pidG = true
    · rw [if_pos h]
      left
      rfl
    · rw [if_neg h]
      right
      rfl

/-- Witness for C3's amended behaviour at concrete inputs: a readable (empty)
file never raises, whatever the pid state. -/
theorem c3_witness :
    (readFile (some []) (some 3) true = .error () ↔
      some ([] : List String) = none ∧ true = true ∧ pidTruthy (some 3) = true) ∧
    (some ([] : List String) = none →
      readFile (some []) (some 3) true = .error () ∨
        readFile (some []) (some 3) true = .ok []) :=
  c3_readFile_error_iff (some []) (some 3) true

/-- Counterexample to C3 as stated: on the very first ever access (global
pid not yet allocated) with the file unreadable and `raise_exc` set, the
code RETURNS the empty sequence instead of surfacing the failure; and once a
pid is allocated (here 3) the same unreadable read DOES raise — both
directions contradict the claim's "only on first access" exception rule. -/
theorem c3_counterexample :
    readFile none none true = .ok [] ∧
    readFile none (some 3) true = .error () := by
  exact ⟨rfl, rfl⟩

/-- Claim C6: writing any finite list of well-formed entries and reading the
file back yields exactly the same (pid, site) pairs up to permutation —
hence the same set, independently of the input order — and one unparseable
line anywhere in a file is skipped without affecting the parse of every
other line. -/
theorem c6_roundtrip (l : List ProcEntry) (hwf : ∀ e ∈ l, WFEntry e) :
    ((readLines (writeLines l)).map (fun e => (e.pid, e.site))).Perm
      (l.map (fun e => (e.pid, e.site))) ∧
    (∀ pre suf : List String, ∀ bad : String, parseLine bad = none →
      readLines (pre ++ bad :: suf) = readLines (pre ++ suf)) := by
  constructor
  · rw [readLines_writeLines l hwf]
    exact (sortEntries_perm l).map _
  · intro pre suf bad hbad
    simp [readLines, List.filterMap_append, List.filterMap_cons, hbad]

/-- Witness for C6 at a concrete two-entry registry. -/
theorem c6_witness :
    ((readLines (writeLines
        [{ pid := 2, time := 7, site := "wikipedia" },
         { pid := 1, time := 3, site := "b" }])).map (fun e => (e.pid, e.site))).Perm
      (([{ pid := 2, time := 7, site := "wikipedia" },
        { pid := 1, time := 3, site := "b" }] : List ProcEntry).map
          (fun e => (e.pid, e.site))) ∧
    (∀ pre suf : List String, ∀ bad : String, parseLine bad = none →
      readLines (pre ++ bad :: suf) = readLines (pre ++ suf)) :=
  c6_roundtrip
    [{ pid := 2, time := 7, site := "wikipedia" }, { pid := 1, time := 3, site := "b" }]
    (by decide)

theorem parseLine_time_den (line : String) (e : ProcEntry) (h : parseLine line = some e) :
    e.time.den = 1 := by
  rw [parseLine] at h
  split at h
  · split at h
    · rw [Option.some.injEq] at h
      rw [← h]
      exact Rat.den_intCast _
    · cases h
  · cases h

/-- Claim C7, amended: every rewrite fully replaces the file contents
(the previous contents are irrelevant) with exactly one rendered
`pid time site` line per entry, entries sorted by (pid, site); and every
timestamp read back from the file is an integer (parsing truncates).  The
"every timestamp written is an integer" half of the claim fails: the entry
the process appends for itself carries the raw current clock value, which
may be fractional — see the counterexample. -/
theorem c7_write_format (l : List ProcEntry) (gs1 gs2 : GlobalState) :
    List.Sorted entryLe (sortEntries l) ∧
    writeLines l = (sortEntries l).map lineOf ∧
    (writeLines l).length = l.length ∧
    (writeFileGS gs1 l).file = (writeFileGS gs2 l).file ∧
    (∀ line e, parseLine line = some e → e.time.den = 1) := by
  refine ⟨sortEntries_sorted l, rfl, ?_, rfl, fun line e h => parseLine_time_den line e h⟩
  rw [writeLines, List.length_map, (sortEntries_perm l).length_eq]

/-- Witness for C7's amended statement at a concrete entry list. -/
theorem c7_witness :
    List.Sorted entryLe (sortEntries [{ pid := 2, time := 7, site := "b" },
      { pid := 1, time := 3, site := "a" }]) ∧
    (writeLines [{ pid := 2, time := 7, site := "b" },
      { pid := 1, time := 3, site := "a" }]).length = 2 :=
  ⟨(c7_write_format [{ pid := 2, time := 7, site := "b" },
      { pid := 1, time := 3, site := "a" }] ⟨none, none⟩ ⟨none, none⟩).1,
   (c7_write_format [{ pid := 2, time := 7, site := "b" },
      { pid := 1, time := 3, site := "a" }] ⟨none, none⟩ ⟨none, none⟩).2.2.1⟩

/-- The rational 5/2, given by its raw normal form so that kernel reduction
works on it. -/
def q52 : ℚ := ⟨5, 2, by decide, by decide⟩

/-- C7 counterexample state: multiplicity mode on, empty readable registry,
pid already allocated. -/
def c7St : ThrottleState :=
  { mysite := "wiki", mindelay := 1, maxdelay := 10, writedelay := 5, delay := 2,
    last_read := 0, last_write := 0, next_multiplicity := 1, checkdelay := 300,
    dropdelay := 600, releasepid := 1200, retry_after := 0, checktime := 0,
    multiplydelay := true, process_multiplicity := 1 }

/-- Counterexample to C7 as stated: a refresh at clock value 5/2 writes this
process's own entry with timestamp 5/2 — not an integer — so "every
timestamp written to the file is an integer" is false. -/
theorem c7_counterexample :
    checkMultiplicity c7St { pid := some 1, file := some [] } q52 q52 =
      (.ok ({ c7St with checktime := q52, process_multiplicity := 1 },
            { pid := some 1,
              file := some (writeLines [{ pid := 1, time := q52, site := "wiki" }]) }),
       [IOEvent.read, IOEvent.write]) ∧
    ({ pid := 1, time := q52, site := "wiki" } : ProcEntry).time.den ≠ 1 := by
  exact ⟨rfl, by decide⟩

theorem countedPeer_iff_claim (st : ThrottleState) (q : ℤ) (now : ℚ)
    (hdr : st.dropdelay ≤ st.releasepid) (p : ProcEntry) :
    decide (countedPeer st.mysite st.dropdelay st.releasepid (some q) now p) =
      (decide (now - p.time ≤ st.dropdelay) && decide (p.site = st.mysite) &&
        decide (p.pid ≠ q)) := by
  by_cases h1 : now - p.time ≤ st.dropdelay
  · by_cases h2 : p.site = st.mysite
    · by_cases h3 : p.pid ≠ q
      · have hne : ¬ st.releasepid < now - p.time := not_lt.mpr (h1.trans hdr)
        simp [countedPeer, pidNe, h1, h2, h3, hne]
      · simp [countedPeer, pidNe, h3]
    · simp [countedPeer, pidNe, h2]
  · simp [countedPeer, h1]

/-- Claim C4: with the process pid already allocated (some nonzero `q`), the
windows as `__init__` fixes them (`dropdelay ≤ releasepid`, `0 ≤
releasepid`) and the clock not running backwards between the two reads, a
successful `checkMultiplicity` (i) counts as peers exactly the entries at
most `dropdelay` old that match the site and carry a pid other than `q`,
(ii) returns multiplicity = peers + 1 ≥ 1, (iii) records `checktime = now2`
and appends this process's own entry stamped with that clock value as the
last entry of the rewrite, and (iv) an entry strictly older than
`releasepid` is neither counted nor retained in the rewritten set. -/
theorem c4_checkMultiplicity (st : ThrottleState) (gs : GlobalState) (now now2 : ℚ)
    (q : ℤ) (entries : List ProcEntry)
    (hq : gs.pid = some q) (hq0 : q ≠ 0)
    (hdr : st.dropdelay ≤ st.releasepid) (hrp : 0 ≤ st.releasepid) (hmono : now ≤ now2)
    (hr : readFile gs.file gs.pid true = .ok entries) :
    checkMultiplicity st gs now now2 =
      (.ok ({ st with
                checktime := now2,
                process_multiplicity :=
                  1 + (entries.filter (fun p => decide (now - p.time ≤ st.dropdelay) &&
                        decide (p.site = st.mysite) && decide (p.pid ≠ q))).length },
            { pid := some q,
              file := some (writeLines
                (entries.filter
                    (fun p => decide (retained st.mysite st.releasepid gs.pid now p)) ++
                  [{ pid := q, time := now2, site := st.mysite }])) }),
       [IOEvent.read, IOEvent.write]) ∧
    1 ≤ 1 + (entries.filter (fun p => decide (now - p.time ≤ st.dropdelay) &&
          decide (p.site = st.mysite) && decide (p.pid ≠ q))).length ∧
    (∀ e ∈ entries, st.releasepid < now - e.time →
      e ∉ (entries.filter
            (fun p => decide (retained st.mysite st.releasepid gs.pid now p)) ++
          [{ pid := q, time := now2, site := st.mysite }]) ∧
      e ∉ entries.filter (fun p => decide (now - p.time ≤ st.dropdelay) &&
            decide (p.site = st.mysite) && decide (p.pid ≠ q))) := by
  have htr : pidTruthy gs.pid = true := by
    rw [hq, pidTruthy]
    simpa using hq0
  have hnp : newPidOf gs.pid st.releasepid now entries = q := by
    rw [newPidOf, if_pos htr, hq, pidVal]
    rfl
  have hfc : entries.filter
      (fun p => decide (countedPeer st.mysite st.dropdelay st.releasepid gs.pid now p)) =
      entries.filter (fun p => decide (now - p.time ≤ st.dropdelay) &&
        decide (p.site = st.mysite) && decide (p.pid ≠ q)) := by
    refine List.filter_congr ?_
    intro p _
    rw [hq]
    exact countedPeer_iff_claim st q now hdr p
  refine ⟨?_, by omega, ?_⟩
  · rw [checkMultiplicity_eq st gs now now2 entries hr, hfc, hnp]
  · intro e hmem hexp
    constructor
    · rw [List.mem_append]
      rintro (hkept | hself)
      · rw [List.mem_filter, decide_eq_true_eq] at hkept
        exact hkept.2.1 hexp
      · rw [List.mem_singleton] at hself
        have htime : e.time = now2 := by rw [hself]
        have : now - now2 ≤ st.releasepid := by
          have : now - now2 ≤ 0 := by linarith
          linarith
        rw [htime] at hexp
        exact absurd hexp (not_lt.mpr this)
    · intro hpe
      rw [List.mem_filter, Bool.and_eq_true, Bool.and_eq_true, decide_eq_true_eq] at hpe
      have hfresh : now - e.time ≤ st.dropdelay := hpe.2.1.1
      exact absurd hexp (not_lt.mpr (hfresh.trans hdr))

/-- Concrete state for C4's witness. -/
def c4WSt : ThrottleState :=
  { mysite := "wiki", mindelay := 1, maxdelay := 10, writedelay := 5, delay := 2,
    last_read := 0, last_write := 0, next_multiplicity := 1, checkdelay := 300,
    dropdelay := 600, releasepid := 1200, retry_after := 0, checktime := 0,
    multiplydelay := true, process_multiplicity := 1 }

/-- Witness for C4: a registry with one fresh same-site peer (pid 3) at
`now = 200`; the multiplicity recorded for this process (pid 7) is 2. -/
theorem c4_witness :
    ((checkMultiplicity c4WSt
        { pid := some 7,
          file := some (writeLines [{ pid := 3, time := 100, site := "wiki" }]) }
        200 200).1.toOption.map (fun r => r.1.process_multiplicity)) = some 2 := by
  have hr : readFile
      (some (writeLines [{ pid := 3, time := 100, site := "wiki" }])) (some 7) true =
      .ok [{ pid := 3, time := 100, site := "wiki" }] := by
    rw [readFile, readLines_writeLines _ (by decide)]
    rw [show sortEntries [{ pid := 3, time := 100, site := "wiki" }] =
      [{ pid := 3, time := 100, site := "wiki" }] from rfl]
  have h := (c4_checkMultiplicity c4WSt
    { pid := some 7, file := some (writeLines [{ pid := 3, time := 100, site := "wiki" }]) }
    200 200 7 [{ pid := 3, time := 100, site := "wiki" }]
    rfl (by norm_num) (by norm_num [c4WSt]) (by norm_num [c4WSt]) (by norm_num) hr).1
  rw [h]
  simp only [Except.toOption, Option.map_some']
  rw [List.filter_cons]
  norm_num [c4WSt]

/-- Claim C8, amended: on the first refresh (no process-wide id yet), the
allocated id is one greater than the largest pid among the entries NOT older
than `releasepid`, floored at the starting value 1 (so 1 when no live entry
exists) — expired entries are skipped before the scan, which is where the
claim as stated fails; once allocated (truthy), the id never changes; and
the allocated value does not depend on the site the refresh was run for. -/
theorem c8_pid_allocation (st : ThrottleState) (gs : GlobalState) (now now2 : ℚ)
    (entries : List ProcEntry) (hr : readFile gs.file gs.pid true = .ok entries) :
    (gs.pid = none →
      ∀ st' gs', (checkMultiplicity st gs now now2).1 = .ok (st', gs') →
        gs'.pid = some (((entries.filter
          (fun p => decide (¬ st.releasepid < now - p.time))).map
            (fun p => p.pid + 1)).foldl max 1)) ∧
    (∀ q : ℤ, gs.pid = some q → q ≠ 0 →
      ∀ st' gs', (checkMultiplicity st gs now now2).1 = .ok (st', gs') →
        gs'.pid = some q) ∧
    (∀ site2 : String, ∀ st' gs' st2' gs2',
      (checkMultiplicity st gs now now2).1 = .ok (st', gs') →
      (checkMultiplicity { st with mysite := site2 } gs now now2).1 = .ok (st2', gs2') →
      gs2'.pid = gs'.pid) := by
  have heq := checkMultiplicity_eq st gs now now2 entries hr
  refine ⟨?_, ?_, ?_⟩
  · intro hnone st' gs' hok
    rw [heq] at hok
    simp only [Except.ok.injEq, Prod.mk.injEq] at hok
    rw [← hok.2, newPidOf, hnone]
    rw [if_neg (by rw [pidTruthy]; simp)]
  · intro q hq hq0 st' gs' hok
    rw [heq] at hok
    simp only [Except.ok.injEq, Prod.mk.injEq] at hok
    rw [← hok.2, newPidOf, if_pos (by rw [hq, pidTruthy]; simpa using hq0), hq, pidVal]
    rfl
  · intro site2 st' gs' st2' gs2' hok hok2
    have heq2 := checkMultiplicity_eq { st with mysite := site2 } gs now now2 entries hr
    rw [heq] at hok
    rw [heq2] at hok2
    simp only [Except.ok.injEq, Prod.mk.injEq] at hok hok2
    rw [← hok.2, ← hok2.2]

/-- Witness for C8: an empty readable registry on first access allocates
pid 1 (the "no entries" base case), and with a pid already allocated it is
kept. -/
theorem c8_witness :
    (({ pid := none, file := some [] } : GlobalState).pid = none →
      ∀ st' gs', (checkMultiplicity c7St { pid := none, file := some [] } 50 50).1 =
          .ok (st', gs') →
        gs'.pid = some (((([] : List ProcEntry).filter
          (fun p => decide (¬ c7St.releasepid < 50 - p.time))).map
            (fun p => p.pid + 1)).foldl max 1)) ∧
    (∀ q : ℤ, ({ pid := none, file := some [] } : GlobalState).pid = some q → q ≠ 0 →
      ∀ st' gs', (checkMultiplicity c7St { pid := none, file := some [] } 50 50).1 =
          .ok (st', gs') →
        gs'.pid = some q) ∧
    (∀ site2 : String, ∀ st' gs' st2' gs2',
      (checkMultiplicity c7St { pid := none, file := some [] } 50 50).1 = .ok (st', gs') →
      (checkMultiplicity { c7St with mysite := site2 }
        { pid := none, file := some [] } 50 50).1 = .ok (st2', gs2') →
      gs2'.pid = gs'.pid) :=
  c8_pid_allocation c7St { pid := none, file := some [] } 50 50 [] rfl

/-- C8 counterexample registry: a single entry with pid 5 that is long
expired (timestamp 0, read at clock 10000 with `releasepid = 1200`). -/
def c8CEntry : ProcEntry := { pid := 5, time := 0, site := "wiki" }

/-- Counterexample to C8 as stated: the registry holds one entry (pid 5),
so "one greater than the maximum pid observed among the registry's entries"
would be 6; but the entry is older than `releasepid`, the loop skips it
before the pid scan, and the code allocates 1. -/
theorem c8_counterexample :
    readFile (some (writeLines [c8CEntry])) none true = .ok [c8CEntry] ∧
    ((checkMultiplicity c7St { pid := none, file := some (writeLines [c8CEntry]) }
        10000 10000).1.toOption.map (fun r => r.2.pid)) = some (some 1) ∧
    (some (1 : ℤ) : Option ℤ) ≠ some 6 := by
  have hr : readFile (some (writeLines [c8CEntry])) none true = .ok [c8CEntry] := by
    rw [readFile, readLines_writeLines _ (by decide)]
    rw [show sortEntries [c8CEntry] = [c8CEntry] from rfl]
  refine ⟨hr, ?_, by decide⟩
  rw [checkMultiplicity_eq c7St _ 10000 10000 [c8CEntry] hr]
  simp only [Except.toOption, Option.map_some']
  rw [newPidOf, if_neg (by rw [pidTruthy]; simp)]
  rw [List.filter_cons]
  norm_num [c8CEntry, c7St]

theorem waittime_no_sleep (st : ThrottleState) (gs : GlobalState) (write : Bool)
    (t1 t2 t3 t4 : ℚ) (s : ℚ) :
    IOEvent.sleep s ∉ (waittime st gs write t1 t2 t3 t4).2 := by
  by_cases hm : st.multiplydelay = false
  · rw [waittime_of_getDelay_ok _ _ _ _ _ _ _ _ _ _ _ (getDelay_off st gs write t1 t2 t3 hm)]
    simp
  · rw [Bool.not_eq_false] at hm
    by_cases hdue : st.checktime + st.checkdelay < t1
    · cases hfile : readFile gs.file gs.pid true with
      | error e =>
        cases e
        rw [waittime_of_getDelay_error _ _ _ _ _ _ _ _
          (getDelay_refresh_error st gs write t1 t2 t3 hm hdue hfile)]
        simp
      | ok entries =>
        rw [waittime_of_getDelay_ok _ _ _ _ _ _ _ _ _ _ _
          (getDelay_refresh st gs write t1 t2 t3 _ _ _ hm hdue
            (checkMultiplicity_eq st gs t2 t3 entries hfile))]
        simp
    · rw [waittime_of_getDelay_ok _ _ _ _ _ _ _ _ _ _ _
        (getDelay_noRefresh st gs write t1 t2 t3 hm hdue)]
      simp

theorem waittime_preserves (st : ThrottleState) (gs : GlobalState) (write : Bool)
    (t1 t2 t3 t4 : ℚ) (w : ℚ) (st' : ThrottleState) (gs' : GlobalState)
    (hok : (waittime st gs write t1 t2 t3 t4).1 = .ok (w, st', gs')) :
    st'.last_read = st.last_read ∧ st'.last_write = st.last_write ∧
    st'.next_multiplicity = st.next_multiplicity ∧ st'.delay = st.delay ∧
    st'.writedelay = st.writedelay := by
  by_cases hm : st.multiplydelay = false
  · rw [waittime_of_getDelay_ok _ _ _ _ _ _ _ _ _ _ _ (getDelay_off st gs write t1 t2 t3 hm)]
      at hok
    simp only [Except.ok.injEq, Prod.mk.injEq] at hok
    rw [← hok.2.1]
    exact ⟨rfl, rfl, rfl, rfl, rfl⟩
  · rw [Bool.not_eq_false] at hm
    by_cases hdue : st.checktime + st.checkdelay < t1
    · cases hfile : readFile gs.file gs.pid true with
      | error e =>
        cases e
        rw [waittime_of_getDelay_error _ _ _ _ _ _ _ _
          (getDelay_refresh_error st gs write t1 t2 t3 hm hdue hfile)] at hok
        cases hok
      | ok entries =>
        rw [waittime_of_getDelay_ok _ _ _ _ _ _ _ _ _ _ _
          (getDelay_refresh st gs write t1 t2 t3 _ _ _ hm hdue
            (checkMultiplicity_eq st gs t2 t3 entries hfile))] at hok
        simp only [Except.ok.injEq, Prod.mk.injEq] at hok
        rw [← hok.2.1]
        exact ⟨rfl, rfl, rfl, rfl, rfl⟩
    · rw [waittime_of_getDelay_ok _ _ _ _ _ _ _ _ _ _ _
        (getDelay_noRefresh st gs write t1 t2 t3 hm hdue)] at hok
      simp only [Except.ok.injEq, Prod.mk.injEq] at hok
      rw [← hok.2.1]
      exact ⟨rfl, rfl, rfl, rfl, rfl⟩

theorem waittime_pure_when_not_due (st : ThrottleState) (gs : GlobalState) (write : Bool)
    (t1 t2 t3 t4 : ℚ)
    (h : st.multiplydelay = false ∨ ¬ st.checktime + st.checkdelay < t1) :
    (waittime st gs write t1 t2 t3 t4).2 = [] ∧
    ∀ w st' gs', (waittime st gs write t1 t2 t3 t4).1 = .ok (w, st', gs') →
      st' = st ∧ gs' = gs := by
  by_cases hm : st.multiplydelay = false
  · rw [waittime_of_getDelay_ok _ _ _ _ _ _ _ _ _ _ _ (getDelay_off st gs write t1 t2 t3 hm)]
    refine ⟨rfl, ?_⟩
    intro w st' gs' hok
    simp only [Except.ok.injEq, Prod.mk.injEq] at hok
    exact ⟨hok.2.1.symm, hok.2.2.symm⟩
  · rw [Bool.not_eq_false] at hm
    have hdue : ¬ st.checktime + st.checkdelay < t1 := by
      rcases h with h | h
      · rw [hm] at h
        cases h
      · exact h
    rw [waittime_of_getDelay_ok _ _ _ _ _ _ _ _ _ _ _
      (getDelay_noRefresh st gs write t1 t2 t3 hm hdue)]
    refine ⟨rfl, ?_⟩
    intro w st' gs' hok
    simp only [Except.ok.injEq, Prod.mk.injEq] at hok
    exact ⟨hok.2.1.symm, hok.2.2.symm⟩

/-- Claim C2, amended: `waittime` never sleeps, and it never changes
`last_read`, `last_write`, `next_multiplicity` or the configured delays;
when multiplicity mode is off, or no refresh is due yet, it performs no
registry I/O and leaves every part of the state unchanged — a pure query.
But when multiplicity mode is on and more than `checkdelay` seconds have
passed since the last refresh, it transparently runs `checkMultiplicity`,
which reads and rewrites the registry file and updates `checktime`,
`process_multiplicity` and possibly the global pid (see the
counterexample), so as stated ("never mutates state, even when called more
than checkdelay seconds after the last refresh") the claim is false. -/
theorem c2_waittime_frame (st : ThrottleState) (gs : GlobalState) (write : Bool)
    (t1 t2 t3 t4 : ℚ) :
    (∀ s : ℚ, IOEvent.sleep s ∉ (waittime st gs write t1 t2 t3 t4).2) ∧
    (∀ w st' gs', (waittime st gs write t1 t2 t3 t4).1 = .ok (w, st', gs') →
      st'.last_read = st.last_read ∧ st'.last_write = st.last_write ∧
      st'.next_multiplicity = st.next_multiplicity) ∧
    (st.multiplydelay = false ∨ ¬ st.checktime + st.checkdelay < t1 →
      (waittime st gs write t1 t2 t3 t4).2 = [] ∧
      ∀ w st' gs', (waittime st gs write t1 t2 t3 t4).1 = .ok (w, st', gs') →
        st' = st ∧ gs' = gs) :=
  ⟨fun s => waittime_no_sleep st gs write t1 t2 t3 t4 s,
   fun w st' gs' hok =>
     let h := waittime_preserves st gs write t1 t2 t3 t4 w st' gs' hok
     ⟨h.1, h.2.1, h.2.2.1⟩,
   fun h => waittime_pure_when_not_due st gs write t1 t2 t3 t4 h⟩

/-- C2 witness state: multiplicity mode on, refresh not due. -/
def c2WSt : ThrottleState :=
  { mysite := "wiki", mindelay := 1, maxdelay := 10, writedelay := 5, delay := 2,
    last_read := 0, last_write := 0, next_multiplicity := 1, checkdelay := 300,
    dropdelay := 600, releasepid := 1200, retry_after := 0, checktime := 100,
    multiplydelay := true, process_multiplicity := 1 }

/-- Witness for C2's amended statement: a call with the refresh not yet due
(t1 = 150 ≤ checktime 100 + checkdelay 300) performs no I/O. -/
theorem c2_witness :
    (waittime c2WSt { pid := some 1, file := some [] } false 150 150 150 150).2 = [] ∧
    ∀ w st' gs',
      (waittime c2WSt { pid := some 1, file := some [] } false 150 150 150 150).1 =
        .ok (w, st', gs') →
      st' = c2WSt ∧ gs' = { pid := some 1, file := some [] } :=
  (c2_waittime_frame c2WSt { pid := some 1, file := some [] } false 150 150 150 150).2.2
    (Or.inr (by simp only [c2WSt]; norm_num))

/-- C2 counterexample state: multiplicity mode on, last refresh at 0, so a
call at t = 1000 is past the 300-second refresh window. -/
def c2CSt : ThrottleState :=
  { mysite := "wiki", mindelay := 1, maxdelay := 10, writedelay := 5, delay := 2,
    last_read := 0, last_write := 0, next_multiplicity := 1, checkdelay := 300,
    dropdelay := 600, releasepid := 1200, retry_after := 0, checktime := 0,
    multiplydelay := true, process_multiplicity := 1 }

/-- Counterexample to C2 as stated: called more than `checkdelay` seconds
after the last refresh, `waittime` reads AND rewrites the registry file and
changes `checktime` from 0 to 1000 — it is not a pure query there. -/
theorem c2_counterexample :
    (waittime c2CSt { pid := some 1, file := some [] } false 1000 1000 1000 1000).2 =
      [IOEvent.read, IOEvent.write] ∧
    (waittime c2CSt { pid := some 1, file := some [] } false 1000 1000 1000 1000).1 =
      .ok (0, { c2CSt with checktime := 1000 },
        { pid := some 1,
          file := some (writeLines [{ pid := 1, time := 1000, site := "wiki" }]) }) ∧
    c2CSt.checktime = 0 ∧ (1000 : ℚ) ≠ 0 ∧
    ({ pid := some 1, file := some [] } : GlobalState).file ≠
      some (writeLines [{ pid := 1, time := 1000, site := "wiki" }]) := by
  have hcm := checkMultiplicity_eq c2CSt { pid := some 1, file := some [] } 1000 1000 [] rfl
  have hgd := getDelay_refresh c2CSt { pid := some 1, file := some [] } false
    1000 1000 1000 _ _ _ rfl (by simp only [c2CSt]; norm_num) hcm
  have hwt := waittime_of_getDelay_ok c2CSt { pid := some 1, file := some [] } false
    1000 1000 1000 1000 _ _ _ _ hgd
  rw [hwt]
  refine ⟨rfl, ?_, rfl, by norm_num, ?_⟩
  · refine congrArg Except.ok ?_
    refine Prod.ext ?_ rfl
    simp only [clampBase, c2CSt]
    norm_num
  · simp only [writeLines]
    rw [show sortEntries [{ pid := 1, time := 1000, site := "wiki" }] =
      [{ pid := 1, time := 1000, site := "wiki" }] from rfl]
    simp

/-- Claim C10: the wait of an acquire call is computed by `waittime` from
the state BEFORE `next_multiplicity` is updated, and only afterwards is
`next_multiplicity` set from the request size; hence the entire observable
behaviour of the call (the I/O-and-sleep trace, including the slept
duration) is identical for any two request sizes, and the post-state's
`next_multiplicity` is exactly the size-adaptation value of THIS call,
affecting only later calls.  (The float `log2(1 + requestsize)` is the
parameter `nmOf`; the statement holds for every such function.) -/
theorem c10_call_order (st : ThrottleState) (gs : GlobalState) (rs1 rs2 : ℚ)
    (write : Bool) (t1 t2 t3 t4 t5 : ℚ) (nmOf : ℚ → ℚ) :
    (throttleCall st gs rs1 write t1 t2 t3 t4 t5 nmOf).2 =
      (throttleCall st gs rs2 write t1 t2 t3 t4 t5 nmOf).2 ∧
    (∀ w st1 gs1 tr, waittime st gs write t1 t2 t3 t4 = (.ok (w, st1, gs1), tr) →
      (throttleCall st gs rs1 write t1 t2 t3 t4 t5 nmOf).1 =
        .ok ((if write then { st1 with next_multiplicity := nmOf rs1, last_write := t5 }
              else { st1 with next_multiplicity := nmOf rs1, last_read := t5 }), gs1) ∧
      (throttleCall st gs rs1 write t1 t2 t3 t4 t5 nmOf).2 = tr ++ sleepTrace w) := by
  constructor
  · cases hw : waittime st gs write t1 t2 t3 t4 with
    | mk res tr =>
      cases res with
      | error e => simp [throttleCall, hw]
      | ok r =>
        obtain ⟨w, st1, gs1⟩ := r
        simp [throttleCall, hw]
  · intro w st1 gs1 tr hw
    constructor
    · simp only [throttleCall, hw]
    · simp only [throttleCall, hw]

/-- C10 witness state: single-process mode so the wait is immediate to
compute; `delay = 2`, last read at 0, call at t4 = 0 gives wait 2. -/
def c10WSt : ThrottleState :=
  { mysite := "wiki", mindelay := 1, maxdelay := 10, writedelay := 5, delay := 2,
    last_read := 0, last_write := 0, next_multiplicity := 1, checkdelay := 300,
    dropdelay := 600, releasepid := 1200, retry_after := 0, checktime := 0,
    multiplydelay := false, process_multiplicity := 1 }

/-- Witness for C10 at concrete inputs: an acquire of size 64 sleeps the
same wait (2) as any other size would, and leaves `next_multiplicity` at
`nmOf 64` with `last_read` stamped to the post-sleep clock. -/
theorem c10_witness :
    (throttleCall c10WSt { pid := none, file := none } 64 false 0 0 0 0 9
        (fun q => q)).1 =
      .ok ({ c10WSt with next_multiplicity := 64, last_read := 9 },
        { pid := none, file := none }) ∧
    (throttleCall c10WSt { pid := none, file := none } 64 false 0 0 0 0 9
        (fun q => q)).2 = [] ++ sleepTrace 2 := by
  have hwt := waittime_of_getDelay_ok c10WSt { pid := none, file := none } false
    0 0 0 0 _ _ _ _ (getDelay_off c10WSt { pid := none, file := none } false 0 0 0 rfl)
  have hwt2 : waittime c10WSt { pid := none, file := none } false 0 0 0 0 =
      (.ok (2, c10WSt, { pid := none, file := none }), []) := by
    rw [hwt]
    refine congrArg (fun x => (Except.ok (x, c10WSt,
      ({ pid := none, file := none } : GlobalState)), ([] : List IOEvent))) ?_
    simp only [c10WSt]
    norm_num
  have h := (c10_call_order c10WSt { pid := none, file := none } 64 1 false 0 0 0 0 9
    (fun q => q)).2 2 c10WSt { pid := none, file := none } [] hwt2
  exact ⟨h.1, h.2⟩

/-- Claim C9, amended: with `multiplydelay` off, construction, `getDelay`,
`waittime` and acquire (`__call__`) perform no registry I/O at all (acquire
at most sleeps); but release (`drop`) is NOT guarded by `multiplydelay` and
always performs one read and one rewrite of the control file, so the claim's
inclusion of release is false (see the counterexample). -/
theorem c9_no_io_single_process (site : String) (md xd wd : Option ℚ) (cfg : Config)
    (gsI gs : GlobalState) (st : ThrottleState) (write : Bool)
    (ta tb tc t1 t2 t3 t4 t5 tD rs : ℚ) (nmOf : ℚ → ℚ)
    (hm : st.multiplydelay = false) :
    (throttleInit site md xd wd false cfg gsI ta tb tc).2 = [] ∧
    getDelay st gs write t1 t2 t3 =
      (.ok ((if write then st.writedelay else st.delay), st, gs), []) ∧
    (waittime st gs write t1 t2 t3 t4).2 = [] ∧
    (∀ ev ∈ (throttleCall st gs rs write t1 t2 t3 t4 t5 nmOf).2, ev.isFile = false) ∧
    (drop st gs tD).2 = [IOEvent.read, IOEvent.write] := by
  have hgd := getDelay_off st gs write t1 t2 t3 hm
  have hwt := waittime_of_getDelay_ok st gs write t1 t2 t3 t4 _ _ _ _ hgd
  refine ⟨rfl, hgd, by rw [hwt], ?_, rfl⟩
  intro ev hev
  simp only [throttleCall, hwt, List.nil_append] at hev
  rw [sleepTrace] at hev
  by_cases hpos : 0 < max 0 ((if write = true then st.writedelay else st.delay) -
      (t4 - (if write = true then st.last_write else st.last_read)))
  · rw [if_pos hpos] at hev
    rw [List.mem_singleton] at hev
    rw [hev]
    rfl
  · rw [if_neg hpos] at hev
    cases hev

/-- C9 concrete state: a throttle in single-process mode
(`multiplydelay = false`). -/
def c9CSt : ThrottleState :=
  { mysite := "wiki", mindelay := 1, maxdelay := 10, writedelay := 5, delay := 2,
    last_read := 0, last_write := 0, next_multiplicity := 1, checkdelay := 300,
    dropdelay := 600, releasepid := 1200, retry_after := 0, checktime := 0,
    multiplydelay := false, process_multiplicity := 1 }

/-- Witness for C9 at concrete single-process inputs: none of construction,
getDelay, waittime or acquire touches the file, and drop does. -/
theorem c9_witness :
    (throttleInit "wiki" none none none false
      { minthrottle := 0, maxthrottle := 60, put_throttle := 10, retry_wait := 3,
        retry_max := 1000, noisysleep := 3 } { pid := none, file := none } 0 0 0).2 = [] ∧
    getDelay c9CSt { pid := none, file := none } false 0 0 0 =
      (.ok ((if false then c9CSt.writedelay else c9CSt.delay), c9CSt,
        { pid := none, file := none }), []) ∧
    (waittime c9CSt { pid := none, file := none } false 0 0 0 0).2 = [] ∧
    (∀ ev ∈ (throttleCall c9CSt { pid := none, file := none } 1 false 0 0 0 0 0
        (fun q => q)).2, ev.isFile = false) ∧
    (drop c9CSt { pid := none, file := none } 0).2 = [IOEvent.read, IOEvent.write] :=
  c9_no_io_single_process "wiki" none none none
    { minthrottle := 0, maxthrottle := 60, put_throttle := 10, retry_wait := 3,
      retry_max := 1000, noisysleep := 3 }
    { pid := none, file := none } { pid := none, file := none } c9CSt false
    0 0 0 0 0 0 0 0 0 1 (fun q => q) (by rfl)

/-- Counterexample to C9 as stated: even with `multiplydelay = false`,
release (`drop`) reads and rewrites the shared control file — the source has
no single-process guard in `drop`. -/
theorem c9_counterexample :
    c9CSt.multiplydelay = false ∧
    (drop c9CSt { pid := some 1, file := some [] } 0).2 =
      [IOEvent.read, IOEvent.write] ∧
    ([IOEvent.read, IOEvent.write] : List IOEvent) ≠ [] := by
  exact ⟨rfl, rfl, by decide⟩

/-- Claim C5, amended: for every `lag(hint)` whose hint is not an explicit
zero, the intended wait is `max(retry_after, h / 5)` when a nonzero
`retry_after` is recorded and `h` otherwise, where `h` is the hint if given
and the configured default `retry_wait` if not; the result is capped at
`retry_max`; the elapsed lock-acquisition time is subtracted; and no sleep
happens when the remainder is not positive.  The amendment: a PRESENT hint
of exactly 0 also falls back to the default (Python truthiness of
`lagtime or config.retry_wait`) — see the counterexample. -/
theorem c5_lag (st : ThrottleState) (lagtime : Option ℚ) (cfg : Config)
    (started tNow : ℚ) (hl : lagtime ≠ some 0) :
    lag st lagtime cfg started tNow =
      (min (if st.retry_after ≠ 0 then
              max st.retry_after (lagtime.getD cfg.retry_wait / 5)
            else lagtime.getD cfg.retry_wait) cfg.retry_max - (tNow - started),
       sleepTrace (min (if st.retry_after ≠ 0 then
              max st.retry_after (lagtime.getD cfg.retry_wait / 5)
            else lagtime.getD cfg.retry_wait) cfg.retry_max - (tNow - started))) := by
  have hpy : pyOr lagtime cfg.retry_wait = lagtime.getD cfg.retry_wait := by
    cases lagtime with
    | none => rfl
    | some v =>
      rw [pyOr, Option.getD_some, if_neg ?_]
      intro hv
      exact hl (by rw [hv])
  rw [lag, hpy]

/-- C5 witness state and configuration: recorded `retry_after = 10`. -/
def c5WSt : ThrottleState :=
  { mysite := "wiki", mindelay := 1, maxdelay := 10, writedelay := 5, delay := 2,
    last_read := 0, last_write := 0, next_multiplicity := 1, checkdelay := 300,
    dropdelay := 600, releasepid := 1200, retry_after := 10, checktime := 0,
    multiplydelay := true, process_multiplicity := 1 }

def c5Cfg : Config :=
  { minthrottle := 0, maxthrottle := 60, put_throttle := 10, retry_wait := 3,
    retry_max := 1000, noisysleep := 3 }

/-- Witness for C5, the claim's own concrete scenario: recorded
`retry_after = 10` and hint 100 give a wait of `max(10, 100/5) = 20`
seconds (below the cap 1000), not 100. -/
theorem c5_witness : lag c5WSt (some 100) c5Cfg 0 0 = (20, [IOEvent.sleep 20]) := by
  have h := c5_lag c5WSt (some 100) c5Cfg 0 0
    (by simp only [ne_eq, Option.some.injEq]; norm_num)
  rw [h]
  have h20 : min (if c5WSt.retry_after ≠ 0 then
      max c5WSt.retry_after ((some (100 : ℚ)).getD c5Cfg.retry_wait / 5)
    else (some (100 : ℚ)).getD c5Cfg.retry_wait) c5Cfg.retry_max - ((0 : ℚ) - 0) = 20 := by
    simp only [c5WSt, c5Cfg, Option.getD_some]
    norm_num
  rw [h20]
  rw [sleepTrace, if_pos (by norm_num)]

/-- C5 counterexample state: no retry_after recorded. -/
def c5CSt : ThrottleState :=
  { mysite := "wiki", mindelay := 1, maxdelay := 10, writedelay := 5, delay := 2,
    last_read := 0, last_write := 0, next_multiplicity := 1, checkdelay := 300,
    dropdelay := 600, releasepid := 1200, retry_after := 0, checktime := 0,
    multiplydelay := true, process_multiplicity := 1 }

/-- Counterexample to C5 as stated: with no retry_after recorded and the
hint explicitly given as 0, the claim prescribes an intended wait of h = 0
(so no sleep), but the code's Python-truthy `lagtime or config.retry_wait`
falls back to the default 3 and sleeps for 3 seconds. -/
theorem c5_counterexample :
    lag c5CSt (some 0) c5Cfg 0 0 = (3, [IOEvent.sleep 3]) ∧
    min (0 : ℚ) c5Cfg.retry_max - ((0 : ℚ) - 0) = 0 ∧ ¬ (0 : ℚ) < 0 := by
  refine ⟨?_, by simp only [c5Cfg]; norm_num, by norm_num⟩
  rw [lag]
  have hpy : pyOr (some 0) c5Cfg.retry_wait = 3 := by
    rw [pyOr, if_pos rfl]
    rfl
  rw [hpy]
  have h3 : min (if c5CSt.retry_after ≠ 0 then max c5CSt.retry_after ((3 : ℚ) / 5)
      else (3 : ℚ)) c5Cfg.retry_max - ((0 : ℚ) - 0) = 3 := by
    simp only [c5CSt, c5Cfg]
    norm_num
  rw [h3]
  rw [sleepTrace, if_pos (by norm_num)]

end PywikibotThrottle
